import Mathlib

/-!
Verification of the order-book cache of the kalshi-hockey backend.

The definitions below are a shallow embedding of `src/backend/orderbook.py`
(order-book data model, snapshot/delta application, read accessors, the
websocket run loop of `start_websocket`) together with the complementary-price
derivation of `src/backend/api.py` (`_fetch_market_data`) and the subscribe
control message of `src/backend/kalshi_client.py`.

Python integers are modelled as `Int`; a `dict` key that may be absent is
modelled as `Option`; Python's stable `list.sort` / `sorted` with a price key
is modelled by `List.insertionSort` on the corresponding relation (insertion
sort is stable, and a stable sort by a key is extensionally unique, so this
agrees with CPython's timsort on every input).
-/

namespace KalshiHockey

/-- `OrderBookLevel` dataclass of `orderbook.py`: integer price in cents and
integer quantity. -/
structure OrderBookLevel where
  price : Int
  quantity : Int
  deriving Repr, DecidableEq

/-- `OrderBook` dataclass of `orderbook.py`: a ticker plus bid and ask level
lists (Python lists keep insertion/sort order, so we use `List`). -/
structure OrderBook where
  ticker : String
  bids : List OrderBookLevel := []
  asks : List OrderBookLevel := []
  deriving Repr, DecidableEq

/-- `OrderBook.best_bid`: `self.bids[0].price if self.bids else None`. -/
def OrderBook.best_bid (b : OrderBook) : Option Int :=
  b.bids.head?.map (·.price)

/-- `OrderBook.best_ask`: `self.asks[0].price if self.asks else None`. -/
def OrderBook.best_ask (b : OrderBook) : Option Int :=
  b.asks.head?.map (·.price)

/-- The `"yes"` object of an orderbook payload: optional `"bids"` and `"asks"`
keys, each a list of `[price, qty]` pairs. `none` models an absent key. -/
structure SideData where
  bids : Option (List (Int × Int)) := none
  asks : Option (List (Int × Int)) := none
  deriving Repr, DecidableEq

/-- An orderbook payload (`data` of `_update_book_from_snapshot`, or the
`"orderbook"` member of a websocket snapshot message): optional `"yes"` key. -/
structure OrderbookData where
  yes : Option SideData := none
  deriving Repr, DecidableEq

/-- An inbound websocket message as far as `_handle_ws_message` and the two
update methods inspect it: optional `"type"`, `"market_ticker"`,
`"orderbook"` and `"yes"` keys. -/
structure WsData where
  type : Option String := none
  market_ticker : Option String := none
  orderbook : Option OrderbookData := none
  yes : Option SideData := none
  deriving Repr, DecidableEq

/-- The mutable state of `OrderBookManager` relevant to book bookkeeping:
the `_books` dict (an association list with unique keys, as a Python dict)
and the `_subscribed_tickers` set (as a list of its members). -/
structure OrderBookManager where
  books : List (String × OrderBook) := []
  subscribed_tickers : List String := []
  deriving Repr, DecidableEq

/-- `self._books.get(ticker)`: first (and, keys being unique, only) entry for
the ticker, or `none`. -/
def lookupBook : List (String × OrderBook) → String → Option OrderBook
  | [], _ => none
  | (k, b) :: rest, t => if k = t then some b else lookupBook rest t

/-- In-place mutation of the book stored under a ticker: the dict keeps the
same keys, the value at `t` (if any) is replaced by `f` of itself. -/
def updateBook (books : List (String × OrderBook)) (t : String)
    (f : OrderBook → OrderBook) : List (String × OrderBook) :=
  books.map fun p => if p.1 = t then (p.1, f p.2) else p

/-- `data.get("yes", {}).get("bids", [])` on an orderbook payload. -/
def sideBids (data : OrderbookData) : List (Int × Int) :=
  ((data.yes.getD {}).bids).getD []

/-- `data.get("yes", {}).get("asks", [])` on an orderbook payload. -/
def sideAsks (data : OrderbookData) : List (Int × Int) :=
  ((data.yes.getD {}).asks).getD []

/-- `OrderBookLevel(price=level[0], quantity=level[1])` applied to each raw
pair of a payload list. -/
def parseLevels (raw : List (Int × Int)) : List OrderBookLevel :=
  raw.map fun pq => { price := pq.1, quantity := pq.2 }

/-- `OrderBookManager._update_book_from_snapshot`: if the ticker has no book,
return; otherwise both sides are wholesale replaced by the parsed payload. -/
def _update_book_from_snapshot (mgr : OrderBookManager) (ticker : String)
    (data : OrderbookData) : OrderBookManager :=
  match lookupBook mgr.books ticker with
  | none => mgr
  | some _ =>
    { mgr with
      books := updateBook mgr.books ticker fun book =>
        { book with
          bids := parseLevels (sideBids data)
          asks := parseLevels (sideAsks data) } }

/-- Python's stable ascending sort by price: `sorted(levels, key=lambda x: x.price)`. -/
def sortByPriceAsc (l : List OrderBookLevel) : List OrderBookLevel :=
  l.insertionSort fun x y => x.price ≤ y.price

/-- Python's stable descending sort by price:
`levels.sort(key=lambda x: x.price, reverse=True)`. -/
def sortByPriceDesc (l : List OrderBookLevel) : List OrderBookLevel :=
  l.insertionSort fun x y => y.price ≤ x.price

/-- `levels.remove(existing)` where `existing` is the first level whose price
equals `price`: drops that first occurrence, no-op when absent. -/
def removeFirstAt : List OrderBookLevel → Int → List OrderBookLevel
  | [], _ => []
  | l :: ls, price => if l.price = price then ls else l :: removeFirstAt ls price

/-- `existing.quantity = qty` on the first level whose price equals `price`. -/
def setFirstAt : List OrderBookLevel → Int → Int → List OrderBookLevel
  | [], _, _ => []
  | l :: ls, price, qty =>
    if l.price = price then { l with quantity := qty } :: ls
    else l :: setFirstAt ls price qty

/-- One iteration of the `for price, qty in deltas` loop of `_apply_delta`:
quantity 0 removes any existing level at that price, otherwise the existing
level is overwritten, otherwise a new level is appended. -/
def upsertLevel (levels : List OrderBookLevel) (price qty : Int) :
    List OrderBookLevel :=
  if qty = 0 then removeFirstAt levels price
  else if levels.any fun l => l.price = price then setFirstAt levels price qty
  else levels ++ [{ price := price, quantity := qty }]

/-- `OrderBookManager._apply_delta`: fold the delta pairs through
`upsertLevel`, then `levels.sort(key=lambda x: x.price, reverse=True)` —
the code sorts *descending* unconditionally, for asks as well as bids. -/
def _apply_delta (levels : List OrderBookLevel) (deltas : List (Int × Int)) :
    List OrderBookLevel :=
  sortByPriceDesc (deltas.foldl (fun acc d => upsertLevel acc d.1 d.2) levels)

/-- `OrderBookManager._update_book_from_delta`: no-op when the ticker has no
book; otherwise, when the message has a `"yes"` member, its `"bids"` and
`"asks"` delta lists (when present) are folded into the matching side. -/
def _update_book_from_delta (mgr : OrderBookManager) (ticker : String)
    (yes : Option SideData) : OrderBookManager :=
  match lookupBook mgr.books ticker with
  | none => mgr
  | some _ =>
    match yes with
    | none => mgr
    | some side =>
      { mgr with
        books := updateBook mgr.books ticker fun book =>
          let book1 :=
            match side.bids with
            | none => book
            | some ds => { book with bids := _apply_delta book.bids ds }
          match side.asks with
          | none => book1
          | some ds => { book1 with asks := _apply_delta book1.asks ds } }

/-- `OrderBookManager._handle_ws_message`: dispatch on `data.get("type")`;
for the two orderbook kinds the (truthy, i.e. nonempty) `market_ticker`
selects the book; other kinds are ignored. -/
def _handle_ws_message (mgr : OrderBookManager) (data : WsData) :
    OrderBookManager :=
  if data.type = some "orderbook_snapshot" then
    match data.market_ticker with
    | some t => if t = "" then mgr else
        _update_book_from_snapshot mgr t (data.orderbook.getD {})
    | none => mgr
  else if data.type = some "orderbook_delta" then
    match data.market_ticker with
    | some t => if t = "" then mgr else _update_book_from_delta mgr t data.yes
    | none => mgr
  else mgr

/-- `OrderBookManager.get_best_ask`: `book.best_ask if book else None`. -/
def get_best_ask (mgr : OrderBookManager) (ticker : String) : Option Int :=
  match lookupBook mgr.books ticker with
  | none => none
  | some b => b.best_ask

/-- `OrderBookManager.get_best_bid`: `book.best_bid if book else None`. -/
def get_best_bid (mgr : OrderBookManager) (ticker : String) : Option Int :=
  match lookupBook mgr.books ticker with
  | none => none
  | some b => b.best_bid

/-- `OrderBookManager.get_asks`: `[]` for an unknown ticker, otherwise the
stored ask levels sorted by price ascending. -/
def get_asks (mgr : OrderBookManager) (ticker : String) :
    List OrderBookLevel :=
  match lookupBook mgr.books ticker with
  | none => []
  | some b => sortByPriceAsc b.asks

/-- The `for level in asks: if level.price <= limit_price: total += ... else:
break` loop of `get_available_contracts`. -/
def availLoop : List OrderBookLevel → Int → Int
  | [], _ => 0
  | l :: ls, limit =>
    if l.price ≤ limit then l.quantity + availLoop ls limit else 0

/-- `OrderBookManager.get_available_contracts`: total quantity accumulated by
the early-exit scan over `get_asks`. -/
def get_available_contracts (mgr : OrderBookManager) (ticker : String)
    (limit_price : Int) : Int :=
  availLoop (get_asks mgr ticker) limit_price

/-- The raw stored ask levels of a ticker (the list held in `_books`, before
the accessor's sort); `[]` when the ticker has no book. Used to state
specifications against the stored contents. -/
def askLevels (mgr : OrderBookManager) (ticker : String) :
    List OrderBookLevel :=
  match lookupBook mgr.books ticker with
  | none => []
  | some b => b.asks

/-- `best_no_ask = (100 - best_yes_bid) if best_yes_bid else None` in
`_fetch_market_data` of `api.py`: Python truthiness makes both `None` and a
best bid of `0` yield `None`. -/
def best_no_ask (best_yes_bid : Option Int) : Option Int :=
  match best_yes_bid with
  | none => none
  | some b => if b = 0 then none else some (100 - b)

/-- Observable events of the websocket lifecycle in `start_websocket` of
`orderbook.py` and `subscribe` of `kalshi_client.py`. -/
inductive WsEvent where
  | connect
  | wsError
  | backoff (seconds : Nat)
  | subscribeSent (channels : List String) (tickers : List String)
  deriving Repr, DecidableEq

/-- Event trace of the `run_ws` loop of `start_websocket`, scheduled with
`failures` sessions that end in a transport error before one that stays up:
each failed `connect_websocket` raises, is caught, and is followed by
`asyncio.sleep(5)` and a fresh connection attempt. The loop itself never
sends anything. -/
def run_ws_events : Nat → List WsEvent
  | 0 => [WsEvent.connect]
  | n + 1 =>
    WsEvent.connect :: WsEvent.wsError :: WsEvent.backoff 5 :: run_ws_events n

/-- The subscription sends performed by `start_websocket` itself: after
`asyncio.sleep(1)`, one `client.subscribe(["orderbook_delta"], tickers)`
call — and only when the subscribed set is nonempty. This code runs once,
outside the reconnect loop. -/
def subscribe_sends (mgr : OrderBookManager) : List WsEvent :=
  if mgr.subscribed_tickers = [] then []
  else [WsEvent.subscribeSent ["orderbook_delta"] mgr.subscribed_tickers]

/-- Linearised event trace of `start_websocket` with the given failure
schedule: the one-second wait places the single subscribe call right after
the first connection; every later (re)connection of `run_ws` follows the
backoff with no further send. -/
def start_websocket_trace (mgr : OrderBookManager) (failures : Nat) :
    List WsEvent :=
  match run_ws_events failures with
  | [] => subscribe_sends mgr
  | c :: rest => c :: (subscribe_sends mgr ++ rest)

/-- Whether an event is a subscription send. -/
def isSubscribeSent : WsEvent → Bool
  | WsEvent.subscribeSent _ _ => true
  | _ => false

/-- Whether an event is a (re)connection. -/
def isConnect : WsEvent → Bool
  | WsEvent.connect => true
  | _ => false

/-- A manager holding one registered, still-empty book for ticker `"T1"`
(the state right after `subscribe("T1")` with a failed REST seed). -/
def mgrT1 : OrderBookManager :=
  { books := [("T1", { ticker := "T1" })], subscribed_tickers := ["T1"] }

/-- The websocket delta message applying asks `[(61,5),(59,20),(60,1)]` to
the yes side of `"T1"`. -/
def deltaAsksMsg : WsData :=
  { type := some "orderbook_delta"
    market_ticker := some "T1"
    yes := some { asks := some [(61, 5), (59, 20), (60, 1)] } }

/-- A well-formed websocket snapshot message for `"T1"` whose ask array
carries the zero-quantity entry `[50, 0]`. -/
def zeroQtySnapMsg : WsData :=
  { type := some "orderbook_snapshot"
    market_ticker := some "T1"
    orderbook := some { yes := some { bids := some [], asks := some [(50, 0)] } } }

/-- A manager whose book for `"T1"` stores the asks
`[(58,10),(59,5),(61,100)]`. -/
def mgrAsks : OrderBookManager :=
  { books := [("T1",
      { ticker := "T1"
        asks := [{ price := 58, quantity := 10 }, { price := 59, quantity := 5 },
                 { price := 61, quantity := 100 }] })]
    subscribed_tickers := ["T1"] }

/-- A well-formed websocket snapshot message for `"T1"` with strictly
positive quantities. -/
def posSnapMsg : WsData :=
  { type := some "orderbook_snapshot"
    market_ticker := some "T1"
    orderbook := some { yes := some { bids := some [(40, 7)], asks := some [(55, 3)] } } }

/-- A websocket snapshot message for a ticker (`"GHOST"`) that has no
registered book. -/
def ghostSnapMsg : WsData :=
  { type := some "orderbook_snapshot"
    market_ticker := some "GHOST"
    orderbook := some { yes := some { bids := some [(10, 1)], asks := some [(90, 2)] } } }

/-- No level of either side of a book has quantity 0. -/
def BookNoZero (b : OrderBook) : Prop :=
  (∀ lv ∈ b.bids, lv.quantity ≠ 0) ∧ ∀ lv ∈ b.asks, lv.quantity ≠ 0

/-- No book in the cache has a level with quantity 0 on either side. -/
def MgrNoZero (m : OrderBookManager) : Prop :=
  ∀ p ∈ m.books, BookNoZero p.2

/-- Every `[price, qty]` entry the snapshot handler would read from this
message's orderbook payload has a nonzero quantity. -/
def snapshotPayloadNonzero (d : WsData) : Prop :=
  ∀ pq ∈ sideBids (d.orderbook.getD {}) ++ sideAsks (d.orderbook.getD {}),
    pq.2 ≠ (0 : Int)

instance (b : OrderBook) : Decidable (BookNoZero b) :=
  decidable_of_iff
    ((∀ lv ∈ b.bids, lv.quantity ≠ 0) ∧ ∀ lv ∈ b.asks, lv.quantity ≠ 0) Iff.rfl

instance (m : OrderBookManager) : Decidable (MgrNoZero m) :=
  decidable_of_iff (∀ p ∈ m.books, BookNoZero p.2) Iff.rfl

instance (d : WsData) : Decidable (snapshotPayloadNonzero d) :=
  decidable_of_iff
    (∀ pq ∈ sideBids (d.orderbook.getD {}) ++ sideAsks (d.orderbook.getD {}),
      pq.2 ≠ (0 : Int)) Iff.rfl

instance : IsTotal OrderBookLevel fun x y => x.price ≤ y.price :=
  ⟨fun a b => le_total a.price b.price⟩

instance : IsTrans OrderBookLevel fun x y => x.price ≤ y.price :=
  ⟨fun _ _ _ hab hbc => le_trans hab hbc⟩

/-! Sorting lemmas -/

theorem sortByPriceAsc_perm (l : List OrderBookLevel) :
    (sortByPriceAsc l).Perm l :=
  List.perm_insertionSort _ l

theorem sortByPriceDesc_perm (l : List OrderBookLevel) :
    (sortByPriceDesc l).Perm l :=
  List.perm_insertionSort _ l

theorem sortByPriceAsc_sorted (l : List OrderBookLevel) :
    List.Pairwise (fun x y => x.price ≤ y.price) (sortByPriceAsc l) :=
  List.sorted_insertionSort _ l

/-! The early-exit depth scan -/

/-- On a price-ascending list, the early-exit scan of
`get_available_contracts` sums the quantities of exactly the levels priced
at or below the limit. -/
theorem availLoop_eq_filter_sum (L : Int) :
    ∀ l : List OrderBookLevel, List.Pairwise (fun x y => x.price ≤ y.price) l →
      availLoop l L = ((l.filter fun lv => lv.price ≤ L).map (·.quantity)).sum := by
  intro l
  induction l with
  | nil => intro _; simp [availLoop]
  | cons a t ih =>
    intro h
    rw [List.pairwise_cons] at h
    by_cases ha : a.price ≤ L
    · simp [availLoop, ha, List.filter_cons, ih h.2]
    · have hall : ∀ x ∈ t, ¬(x.price ≤ L) := fun x hx hle =>
        ha (le_trans (h.1 x hx) hle)
      have hfil : t.filter (fun lv => decide (lv.price ≤ L)) = [] :=
        List.filter_eq_nil_iff.mpr (by simpa using hall)
      simp [availLoop, ha, List.filter_cons, hfil]

/-- `get_available_contracts` equals the sum of the quantities of the stored
ask levels priced at or below the limit, whatever order they are stored in. -/
theorem get_available_contracts_eq_filter_sum (mgr : OrderBookManager)
    (t : String) (L : Int) :
    get_available_contracts mgr t L
      = (((askLevels mgr t).filter fun lv => lv.price ≤ L).map (·.quantity)).sum := by
  unfold get_available_contracts get_asks askLevels
  cases hlk : lookupBook mgr.books t with
  | none => simp [availLoop]
  | some b =>
    rw [availLoop_eq_filter_sum L _ (sortByPriceAsc_sorted b.asks)]
    exact (((sortByPriceAsc_perm b.asks).filter _).map _).sum_eq

/-- Filter-sum is monotone in the limit when all quantities are nonnegative. -/
theorem filter_sum_mono (L1 L2 : Int) (hL : L1 ≤ L2) :
    ∀ l : List OrderBookLevel, (∀ lv ∈ l, 0 ≤ lv.quantity) →
      ((l.filter fun lv => lv.price ≤ L1).map (·.quantity)).sum
        ≤ ((l.filter fun lv => lv.price ≤ L2).map (·.quantity)).sum := by
  intro l
  induction l with
  | nil => intro _; simp
  | cons a t ih =>
    intro hq
    have hqa : 0 ≤ a.quantity := hq a (List.mem_cons_self a t)
    have hqt : ∀ lv ∈ t, 0 ≤ lv.quantity := fun lv hlv =>
      hq lv (List.mem_cons_of_mem a hlv)
    by_cases h1 : a.price ≤ L1
    · have h2 : a.price ≤ L2 := le_trans h1 hL
      simpa [List.filter_cons, h1, h2] using add_le_add_left (ih hqt) a.quantity
    · by_cases h2 : a.price ≤ L2
      · simp only [List.filter_cons, h1, h2]
        simp only [decide_eq_true_eq, if_neg h1, if_pos h2, List.map_cons,
          List.sum_cons]
        exact le_trans (ih hqt) (le_add_of_nonneg_left hqa)
      · simpa [List.filter_cons, h1, h2] using ih hqt

/-! Zero-quantity upserts at absent prices -/

theorem removeFirstAt_of_absent (p : Int) :
    ∀ l : List OrderBookLevel, (∀ lv ∈ l, lv.price ≠ p) →
      removeFirstAt l p = l := by
  intro l
  induction l with
  | nil => intro _; rfl
  | cons a t ih =>
    intro h
    have ha : a.price ≠ p := h a (List.mem_cons_self a t)
    simp only [removeFirstAt, if_neg ha]
    rw [ih fun lv hlv => h lv (List.mem_cons_of_mem a hlv)]

theorem upsertLevel_zero_absent (levels : List OrderBookLevel) (p : Int)
    (h : ∀ lv ∈ levels, lv.price ≠ p) :
    upsertLevel levels p 0 = levels := by
  simp only [upsertLevel, if_pos rfl]
  exact removeFirstAt_of_absent p levels h

/-- A delta list consisting solely of quantity-0 entries at absent prices is
ignored by the upsert fold. -/
theorem foldl_upsert_zeros (ps : List Int) :
    ∀ levels : List OrderBookLevel,
      (∀ p ∈ ps, ∀ lv ∈ levels, lv.price ≠ p) →
      (ps.map fun p => (p, (0 : Int))).foldl
          (fun acc d => upsertLevel acc d.1 d.2) levels = levels := by
  induction ps with
  | nil => intro levels _; rfl
  | cons p ps ih =>
    intro levels h
    have h0 : upsertLevel levels p 0 = levels :=
      upsertLevel_zero_absent levels p (h p (List.mem_cons_self p ps))
    simp only [List.map_cons, List.foldl_cons, h0]
    exact ih levels fun q hq => h q (List.mem_cons_of_mem p hq)

/-- One `_apply_delta` call made only of quantity-0 upserts at absent prices
leaves the level list with exactly the same entries (it merely re-sorts the
list in place). -/
theorem apply_delta_zeros_perm (levels : List OrderBookLevel) (ps : List Int)
    (h : ∀ p ∈ ps, ∀ lv ∈ levels, lv.price ≠ p) :
    (_apply_delta levels (ps.map fun p => (p, (0 : Int)))).Perm levels := by
  unfold _apply_delta
  rw [foldl_upsert_zeros ps levels h]
  exact sortByPriceDesc_perm levels

theorem foldl_apply_delta_zeros_perm (pss : List (List Int)) :
    ∀ cur levels : List OrderBookLevel, cur.Perm levels →
      (∀ ps ∈ pss, ∀ p ∈ ps, ∀ lv ∈ levels, lv.price ≠ p) →
      (pss.foldl
          (fun acc ps => _apply_delta acc (ps.map fun p => (p, (0 : Int))))
          cur).Perm levels := by
  induction pss with
  | nil => intro cur levels hp _; simpa using hp
  | cons ps pss ih =>
    intro cur levels hp h
    have habs : ∀ p ∈ ps, ∀ lv ∈ cur, lv.price ≠ p := fun p hps lv hlv =>
      h ps (List.mem_cons_self ps pss) p hps lv (hp.subset hlv)
    have h1 := apply_delta_zeros_perm cur ps habs
    exact ih _ levels (h1.trans hp) fun ps' hps' =>
      h ps' (List.mem_cons_of_mem ps hps')

/-! No zero-quantity level survives delta application -/

theorem mem_removeFirstAt (p : Int) (lv : OrderBookLevel) :
    ∀ l : List OrderBookLevel, lv ∈ removeFirstAt l p → lv ∈ l := by
  intro l
  induction l with
  | nil => intro h; exact absurd h (List.not_mem_nil lv)
  | cons a t ih =>
    intro h
    simp only [removeFirstAt] at h
    by_cases ha : a.price = p
    · rw [if_pos ha] at h
      exact List.mem_cons_of_mem a h
    · rw [if_neg ha] at h
      rcases List.mem_cons.mp h with h1 | h2
      · exact h1 ▸ List.mem_cons_self a t
      · exact List.mem_cons_of_mem a (ih h2)

theorem mem_setFirstAt (p q : Int) (lv : OrderBookLevel) :
    ∀ l : List OrderBookLevel, lv ∈ setFirstAt l p q →
      lv ∈ l ∨ lv.quantity = q := by
  intro l
  induction l with
  | nil => intro h; exact absurd h (List.not_mem_nil lv)
  | cons a t ih =>
    intro h
    simp only [setFirstAt] at h
    by_cases ha : a.price = p
    · rw [if_pos ha] at h
      rcases List.mem_cons.mp h with h1 | h2
      · right; rw [h1]
      · exact Or.inl (List.mem_cons_of_mem a h2)
    · rw [if_neg ha] at h
      rcases List.mem_cons.mp h with h1 | h2
      · exact Or.inl (h1 ▸ List.mem_cons_self a t)
      · rcases ih h2 with h3 | h3
        · exact Or.inl (List.mem_cons_of_mem a h3)
        · exact Or.inr h3

/-- A single delta upsert never stores a zero quantity: quantity 0 only
removes, and a nonzero quantity only writes itself. -/
theorem upsertLevel_no_zero (levels : List OrderBookLevel) (p q : Int)
    (h : ∀ lv ∈ levels, lv.quantity ≠ 0) :
    ∀ lv ∈ upsertLevel levels p q, lv.quantity ≠ 0 := by
  intro lv hm
  unfold upsertLevel at hm
  by_cases hq : q = 0
  · rw [if_pos hq] at hm
    exact h lv (mem_removeFirstAt p lv levels hm)
  · rw [if_neg hq] at hm
    by_cases hex : levels.any fun l => l.price = p
    · rw [if_pos hex] at hm
      rcases mem_setFirstAt p q lv levels hm with h1 | h1
      · exact h lv h1
      · rw [h1]; exact hq
    · rw [if_neg hex] at hm
      rcases List.mem_append.mp hm with h1 | h1
      · exact h lv h1
      · have : lv = { price := p, quantity := q } := by simpa using h1
        rw [this]; exact hq

theorem foldl_upsert_no_zero (deltas : List (Int × Int)) :
    ∀ levels : List OrderBookLevel, (∀ lv ∈ levels, lv.quantity ≠ 0) →
      ∀ lv ∈ deltas.foldl (fun acc d => upsertLevel acc d.1 d.2) levels,
        lv.quantity ≠ 0 := by
  induction deltas with
  | nil => intro levels h; exact h
  | cons d ds ih =>
    intro levels h
    simp only [List.foldl_cons]
    exact ih _ (upsertLevel_no_zero levels d.1 d.2 h)

theorem apply_delta_no_zero (levels : List OrderBookLevel)
    (deltas : List (Int × Int)) (h : ∀ lv ∈ levels, lv.quantity ≠ 0) :
    ∀ lv ∈ _apply_delta levels deltas, lv.quantity ≠ 0 := by
  intro lv hm
  unfold _apply_delta at hm
  exact foldl_upsert_no_zero deltas levels h lv
    ((sortByPriceDesc_perm _).subset hm)

theorem parseLevels_no_zero (raw : List (Int × Int))
    (h : ∀ pq ∈ raw, pq.2 ≠ (0 : Int)) :
    ∀ lv ∈ parseLevels raw, lv.quantity ≠ 0 := by
  intro lv hm
  rcases List.mem_map.mp hm with ⟨pq, hpq, hlv⟩
  rw [← hlv]
  exact h pq hpq

/-- Membership in the mapped dict: each entry of `updateBook books t f` is an
original entry, possibly with its value rewritten by `f`. -/
theorem mem_updateBook (books : List (String × OrderBook)) (t : String)
    (f : OrderBook → OrderBook) (p : String × OrderBook)
    (hm : p ∈ updateBook books t f) :
    (∃ q ∈ books, p = q) ∨ ∃ q ∈ books, p = (q.1, f q.2) := by
  rcases List.mem_map.mp hm with ⟨q, hq, hp⟩
  by_cases hqt : q.1 = t
  · right; exact ⟨q, hq, by rw [← hp]; simp [hqt]⟩
  · left; exact ⟨q, hq, by rw [← hp]; simp [hqt]⟩

theorem update_from_snapshot_no_zero (m : OrderBookManager) (t : String)
    (data : OrderbookData) (hm : MgrNoZero m)
    (hdata : ∀ pq ∈ sideBids data ++ sideAsks data, pq.2 ≠ (0 : Int)) :
    MgrNoZero (_update_book_from_snapshot m t data) := by
  cases hlk : lookupBook m.books t with
  | none => simp only [_update_book_from_snapshot, hlk]; exact hm
  | some b =>
    simp only [_update_book_from_snapshot, hlk]
    intro p hp
    dsimp only at hp
    rcases mem_updateBook _ _ _ p hp with ⟨q, hq, hpq⟩ | ⟨q, hq, hpq⟩
    · exact hpq ▸ hm q hq
    · rw [hpq]
      refine ⟨parseLevels_no_zero _ fun pq hpq => ?_,
              parseLevels_no_zero _ fun pq hpq => ?_⟩
      · exact hdata pq (List.mem_append_left _ hpq)
      · exact hdata pq (List.mem_append_right _ hpq)

theorem update_from_delta_no_zero (m : OrderBookManager) (t : String)
    (yes : Option SideData) (hm : MgrNoZero m) :
    MgrNoZero (_update_book_from_delta m t yes) := by
  cases hlk : lookupBook m.books t with
  | none => simp only [_update_book_from_delta, hlk]; exact hm
  | some b =>
    cases yes with
    | none => simp only [_update_book_from_delta, hlk]; exact hm
    | some side =>
      simp only [_update_book_from_delta, hlk]
      intro p hp
      dsimp only at hp
      rcases mem_updateBook _ _ _ p hp with ⟨q, hq, hpq⟩ | ⟨q, hq, hpq⟩
      · exact hpq ▸ hm q hq
      · rw [hpq]
        have hb := hm q hq
        cases hbids : side.bids with
        | none =>
          cases hasks : side.asks with
          | none => simpa using hb
          | some ds =>
            simp only [hbids, hasks]
            exact ⟨hb.1, apply_delta_no_zero _ ds hb.2⟩
        | some dsb =>
          cases hasks : side.asks with
          | none =>
            simp only [hbids, hasks]
            exact ⟨apply_delta_no_zero _ dsb hb.1, hb.2⟩
          | some dsa =>
            simp only [hbids, hasks]
            exact ⟨apply_delta_no_zero _ dsb hb.1,
                   apply_delta_no_zero _ dsa hb.2⟩

theorem handle_ws_no_zero (m : OrderBookManager) (d : WsData)
    (hm : MgrNoZero m)
    (hd : d.type = some "orderbook_snapshot" → snapshotPayloadNonzero d) :
    MgrNoZero (_handle_ws_message m d) := by
  unfold _handle_ws_message
  by_cases hsnap : d.type = some "orderbook_snapshot"
  · rw [if_pos hsnap]
    cases hmt : d.market_ticker with
    | none => exact hm
    | some t =>
      simp only []
      by_cases ht : t = ""
      · rw [if_pos ht]; exact hm
      · rw [if_neg ht]
        exact update_from_snapshot_no_zero m t _ hm (hd hsnap)
  · rw [if_neg hsnap]
    by_cases hdel : d.type = some "orderbook_delta"
    · rw [if_pos hdel]
      cases hmt : d.market_ticker with
      | none => exact hm
      | some t =>
        simp only []
        by_cases ht : t = ""
        · rw [if_pos ht]; exact hm
        · rw [if_neg ht]
          exact update_from_delta_no_zero m t d.yes hm
    · rw [if_neg hdel]; exact hm

/-- Looking up the rewritten ticker in the rewritten dict sees the rewritten
book. -/
theorem lookup_updateBook_self (t : String) (f : OrderBook → OrderBook) :
    ∀ books : List (String × OrderBook),
      lookupBook (updateBook books t f) t = (lookupBook books t).map f := by
  intro books
  induction books with
  | nil => rfl
  | cons p rest ih =>
    obtain ⟨k, b⟩ := p
    simp only [updateBook, List.map_cons] at ih ⊢
    by_cases hk : k = t
    · rw [if_pos (show ((k, b) : String × OrderBook).1 = t from hk)]
      simp only [lookupBook]
      rw [if_pos (show k = t from hk), if_pos (show k = t from hk)]
      simp
    · rw [if_neg (show ¬((k, b) : String × OrderBook).1 = t from hk)]
      simp only [lookupBook]
      rw [if_neg hk, if_neg hk]
      exact ih

/-- Looking up a registered ticker after a snapshot application sees the
book with both sides wholesale replaced by the parsed payload. -/
theorem lookup_after_snapshot (mgr : OrderBookManager) (t : String)
    (data : OrderbookData) (b : OrderBook)
    (hb : lookupBook mgr.books t = some b) :
    lookupBook (_update_book_from_snapshot mgr t data).books t
      = some { b with
          bids := parseLevels (sideBids data)
          asks := parseLevels (sideAsks data) } := by
  simp only [_update_book_from_snapshot, hb]
  rw [lookup_updateBook_self, hb]
  rfl

/-! Claim theorems -/

/-- Claim C1 (code bug evidence): evaluating the code at the claim's own
example refutes the stated behaviour. Applying the ask deltas
`[(61,5),(59,20),(60,1)]` to an empty book and querying the best ask
returns 61 — the highest price — because `_apply_delta` sorts every side
descending (`reverse=True`) while `best_ask` reads the first element; the
claim (and the code's own comment, which promises ascending asks) says 59. -/
theorem C1_best_ask_after_delta_is_61 :
    get_best_ask (_handle_ws_message mgrT1 deltaAsksMsg) "T1" = some 61 ∧
    (some 61 : Option Int) ≠ some 59 := by decide

/-- Claim C2 (code bug evidence): in the linearised `start_websocket` trace
with one transport failure there are two successful connections but only one
subscription send, and no subscription send at all from the failure onward —
the subscribe call sits outside the reconnect loop, so the full ticker set is
not re-sent after a reconnection as the claim requires. -/
theorem C2_no_resubscribe_after_reconnect :
    (start_websocket_trace mgrT1 1).countP isConnect = 2 ∧
    (start_websocket_trace mgrT1 1).countP isSubscribeSent = 1 ∧
    ((start_websocket_trace mgrT1 1).drop 2).countP isSubscribeSent = 0 := by
  decide

/-- Claim C3 (counterexample): the claim as stated is false. A single
well-formed snapshot message whose ask array carries the entry `[50, 0]`
leaves a level with quantity 0 stored on the ask side, because
`_update_book_from_snapshot` copies payload levels verbatim without the
quantity-0 removal rule that `_apply_delta` implements. -/
theorem C3_counterexample_zero_stored :
    OrderBookLevel.mk 50 0 ∈
      askLevels (_handle_ws_message mgrT1 zeroQtySnapMsg) "T1" := by decide

/-- Claim C3 (amended): for every cache state with no zero-quantity level
and every sequence of websocket messages whose snapshot payloads contain no
zero-quantity entries, message handling never stores a level with quantity 0
on any side of any book: in a delta, a quantity of 0 removes the level and
is never stored. -/
theorem C3_no_zero_quantity_amended (m0 : OrderBookManager)
    (msgs : List WsData) (h0 : MgrNoZero m0)
    (hs : ∀ d ∈ msgs,
      d.type = some "orderbook_snapshot" → snapshotPayloadNonzero d) :
    MgrNoZero (msgs.foldl _handle_ws_message m0) := by
  induction msgs generalizing m0 with
  | nil => exact h0
  | cons d ds ih =>
    simp only [List.foldl_cons]
    exact ih _ (handle_ws_no_zero m0 d h0 (hs d (List.mem_cons_self d ds)))
      fun d' hd' => hs d' (List.mem_cons_of_mem d hd')

/-- Claim C3 witness: the amended theorem applied to a concrete run — one
delta message and one all-positive snapshot message on a registered empty
book. -/
theorem C3_no_zero_quantity_witness :
    MgrNoZero mgrT1 ∧
    (∀ d ∈ [deltaAsksMsg, posSnapMsg],
      d.type = some "orderbook_snapshot" → snapshotPayloadNonzero d) ∧
    MgrNoZero ([deltaAsksMsg, posSnapMsg].foldl _handle_ws_message mgrT1) :=
  ⟨by decide, by decide,
   C3_no_zero_quantity_amended mgrT1 [deltaAsksMsg, posSnapMsg]
     (by decide) (by decide)⟩

/-- Claim C4 (counterexample): the claim as stated is false at a best bid of
0. The code derives the No-side ask as
`(100 - best_yes_bid) if best_yes_bid else None`, and Python treats the bid
0 as falsy, so a known Yes-side best bid of 0 yields `None`, not
`100 − 0 = 100`. -/
theorem C4_counterexample_zero_bid :
    best_no_ask (some 0) = none ∧ best_no_ask (some 0) ≠ some (100 - 0) := by
  decide

/-- Claim C4 (amended): for every known, nonzero Yes-side best bid `b` with
`1 ≤ b ≤ 100`, the derived ask price to buy the complementary No side equals
`100 − b`; the value is a pure function of the bid passed in, recomputed on
each call. -/
theorem C4_no_ask_complement (b : Int) (h1 : 1 ≤ b) (h2 : b ≤ 100) :
    best_no_ask (some b) = some (100 - b) := by
  show (if b = 0 then none else some (100 - b) : Option Int) = some (100 - b)
  rw [if_neg (by omega)]

/-- Claim C4 witness: a Yes-side best bid of 45 yields the No-side ask 55. -/
theorem C4_no_ask_complement_witness :
    (1 : Int) ≤ 45 ∧ (45 : Int) ≤ 100 ∧ best_no_ask (some 45) = some 55 :=
  ⟨by decide, by decide, C4_no_ask_complement 45 (by decide) (by decide)⟩

/-- Claim C5: for every registered book and all level lists `B1 A1 B2 A2`,
applying the snapshot `(B1, A1)` and then the snapshot `(B2, A2)` leaves the
book holding exactly the parsed levels of `B2` on the bid side and `A2` on
the ask side — nothing of `B1`, `A1` survives, so every subsequent query
reads only `B2`, `A2`. -/
theorem C5_snapshot_replaces (mgr : OrderBookManager) (t : String)
    (b : OrderBook) (B1 A1 B2 A2 : List (Int × Int))
    (hb : lookupBook mgr.books t = some b) :
    ∃ b2 : OrderBook,
      lookupBook (_update_book_from_snapshot
          (_update_book_from_snapshot mgr t
            { yes := some { bids := some B1, asks := some A1 } })
          t { yes := some { bids := some B2, asks := some A2 } }).books t
        = some b2
      ∧ b2.bids = parseLevels B2 ∧ b2.asks = parseLevels A2 := by
  have h1 := lookup_after_snapshot mgr t
    { yes := some { bids := some B1, asks := some A1 } } b hb
  have h2 := lookup_after_snapshot _ t
    { yes := some { bids := some B2, asks := some A2 } } _ h1
  exact ⟨_, h2, rfl, rfl⟩

/-- Claim C5 witness: two concrete snapshots on the registered book of
`mgrAsks`. -/
theorem C5_snapshot_replaces_witness :
    ∃ b2 : OrderBook,
      lookupBook (_update_book_from_snapshot
          (_update_book_from_snapshot mgrAsks "T1"
            { yes := some { bids := some [(10, 1)], asks := some [(90, 2)] } })
          "T1"
          { yes := some { bids := some [(40, 7)], asks := some [(55, 3)] } }).books
        "T1" = some b2
      ∧ b2.bids = parseLevels [(40, 7)] ∧ b2.asks = parseLevels [(55, 3)] :=
  C5_snapshot_replaces mgrAsks "T1"
    { ticker := "T1"
      asks := [{ price := 58, quantity := 10 }, { price := 59, quantity := 5 },
               { price := 61, quantity := 100 }] }
    [(10, 1)] [(90, 2)] [(40, 7)] [(55, 3)] rfl

/-- Claim C6: for every cache state, ticker and limit price,
`get_available_contracts` equals the sum of the quantities of all stored ask
levels priced at or below the limit — the accessor sorts ascending, so the
early-exit scan drops nothing — and on asks `[(58,10),(59,5),(61,100)]` with
limit 60 it returns 15. -/
theorem C6_available_contracts_spec :
    (∀ (mgr : OrderBookManager) (t : String) (L : Int),
      get_available_contracts mgr t L
        = (((askLevels mgr t).filter fun lv => lv.price ≤ L).map
            (·.quantity)).sum)
    ∧ get_available_contracts mgrAsks "T1" 60 = 15 :=
  ⟨get_available_contracts_eq_filter_sum, by rfl⟩

/-- Claim C7: a `_apply_delta` call whose deltas are all `(price, 0)` at
prices absent from the store — and any sequence of such calls — leaves the
Level Store unchanged: the resulting list is a permutation of the original
(the in-place sort may reorder it), so no entry is added, removed or
modified and no zero- or negative-size artifact appears. -/
theorem C7_zero_upserts_no_op (levels : List OrderBookLevel)
    (pss : List (List Int))
    (h : ∀ ps ∈ pss, ∀ p ∈ ps, ∀ lv ∈ levels, lv.price ≠ p) :
    (pss.foldl
        (fun acc ps => _apply_delta acc (ps.map fun p => (p, (0 : Int))))
        levels).Perm levels :=
  foldl_apply_delta_zeros_perm pss levels levels (List.Perm.refl levels) h

/-- Claim C7 witness: two zero-quantity delta calls at absent prices on a
one-level store. -/
theorem C7_zero_upserts_no_op_witness :
    (∀ ps ∈ [[61], [62, 63]], ∀ p ∈ ps,
      ∀ lv ∈ [OrderBookLevel.mk 59 20], lv.price ≠ p) ∧
    (([[61], [62, 63]] : List (List Int)).foldl
        (fun acc ps => _apply_delta acc (ps.map fun p => (p, (0 : Int))))
        [OrderBookLevel.mk 59 20]).Perm [OrderBookLevel.mk 59 20] :=
  ⟨by decide,
   C7_zero_upserts_no_op [OrderBookLevel.mk 59 20] [[61], [62, 63]]
     (by decide)⟩

/-- Claim C8: a ticker with no registered book (never subscribed) gets the
no-data value from every read accessor: `get_best_ask` and `get_best_bid`
return `none`, `get_asks` returns `[]`, and `get_available_contracts`
returns 0 for every limit price — and, the embedding being total, no
exception is possible. -/
theorem C8_never_subscribed_no_data (mgr : OrderBookManager) (t : String)
    (h : lookupBook mgr.books t = none) :
    get_best_ask mgr t = none ∧ get_best_bid mgr t = none ∧
    get_asks mgr t = [] ∧ ∀ L : Int, get_available_contracts mgr t L = 0 := by
  refine ⟨?_, ?_, ?_, fun L => ?_⟩ <;>
    simp [get_best_ask, get_best_bid, get_asks, get_available_contracts, h,
      availLoop]

/-- Claim C8 witness: the accessors on an empty manager and an arbitrary
ticker. -/
theorem C8_never_subscribed_no_data_witness :
    lookupBook (OrderBookManager.mk [] []).books "NEVER" = none ∧
    (get_best_ask (OrderBookManager.mk [] []) "NEVER" = none ∧
     get_best_bid (OrderBookManager.mk [] []) "NEVER" = none ∧
     get_asks (OrderBookManager.mk [] []) "NEVER" = [] ∧
     ∀ L : Int, get_available_contracts (OrderBookManager.mk [] []) "NEVER" L = 0) :=
  ⟨rfl, C8_never_subscribed_no_data (OrderBookManager.mk [] []) "NEVER" rfl⟩

/-- Claim C9: an inbound `orderbook_snapshot` or `orderbook_delta` message
whose market ticker has no registered book leaves the whole cache state
exactly unchanged — no book entry is created or modified. -/
theorem C9_unknown_ticker_frame (mgr : OrderBookManager) (d : WsData)
    (_hk : d.type = some "orderbook_snapshot" ∨
           d.type = some "orderbook_delta")
    (hn : ∀ t, d.market_ticker = some t → lookupBook mgr.books t = none) :
    _handle_ws_message mgr d = mgr := by
  unfold _handle_ws_message
  by_cases hsnap : d.type = some "orderbook_snapshot"
  · rw [if_pos hsnap]
    cases hmt : d.market_ticker with
    | none => rfl
    | some t =>
      simp only []
      by_cases ht : t = ""
      · rw [if_pos ht]
      · rw [if_neg ht]
        simp only [_update_book_from_snapshot, hn t hmt]
  · rw [if_neg hsnap]
    by_cases hdel : d.type = some "orderbook_delta"
    · rw [if_pos hdel]
      cases hmt : d.market_ticker with
      | none => rfl
      | some t =>
        simp only []
        by_cases ht : t = ""
        · rw [if_pos ht]
        · rw [if_neg ht]
          simp only [_update_book_from_delta, hn t hmt]
    · rw [if_neg hdel]

/-- Claim C9 witness: a snapshot message for the unregistered ticker
`"GHOST"` leaves `mgrAsks` unchanged. -/
theorem C9_unknown_ticker_frame_witness :
    (ghostSnapMsg.type = some "orderbook_snapshot" ∨
     ghostSnapMsg.type = some "orderbook_delta") ∧
    _handle_ws_message mgrAsks ghostSnapMsg = mgrAsks :=
  ⟨Or.inl rfl,
   C9_unknown_ticker_frame mgrAsks ghostSnapMsg (Or.inl rfl)
     (fun t ht => by
        have h1 : some "GHOST" = some t := ht
        cases h1
        rfl)⟩

/-- Claim C10: with nonnegative stored quantities (the data model's
well-formedness), `get_available_contracts` is monotone in the limit price —
the accessor sorts ascending before scanning, so the early exit never drops
a qualifying level — and with a limit at or above every stored ask price it
returns the total ask-side quantity. -/
theorem C10_available_contracts_monotone (mgr : OrderBookManager)
    (t : String) (L1 L2 : Int)
    (hq : ∀ lv ∈ askLevels mgr t, 0 ≤ lv.quantity) (hL : L1 ≤ L2) :
    get_available_contracts mgr t L1 ≤ get_available_contracts mgr t L2 ∧
    ((∀ lv ∈ askLevels mgr t, lv.price ≤ L2) →
      get_available_contracts mgr t L2
        = ((askLevels mgr t).map (·.quantity)).sum) := by
  constructor
  · rw [get_available_contracts_eq_filter_sum mgr t L1,
        get_available_contracts_eq_filter_sum mgr t L2]
    exact filter_sum_mono L1 L2 hL (askLevels mgr t) hq
  · intro hall
    rw [get_available_contracts_eq_filter_sum mgr t L2,
        List.filter_eq_self.mpr (by simpa using hall)]

/-- Claim C10 witness: limits 57 and 62 on the asks
`[(58,10),(59,5),(61,100)]`. -/
theorem C10_available_contracts_monotone_witness :
    (∀ lv ∈ askLevels mgrAsks "T1", 0 ≤ lv.quantity) ∧ (57 : Int) ≤ 62 ∧
    (get_available_contracts mgrAsks "T1" 57
        ≤ get_available_contracts mgrAsks "T1" 62 ∧
      ((∀ lv ∈ askLevels mgrAsks "T1", lv.price ≤ 62) →
        get_available_contracts mgrAsks "T1" 62
          = ((askLevels mgrAsks "T1").map (·.quantity)).sum)) :=
  ⟨by decide, by decide,
   C10_available_contracts_monotone mgrAsks "T1" 57 62 (by decide)
     (by decide)⟩

end KalshiHockey
